import Mathlib

/-!
Verification of the chitchat broadcast hub (src/main.py).

Shallow embedding: connection handles are natural numbers; the registry
(ConnectionManager.active_connections, a Python list) is a List Nat.
Whether send_text to a given connection raises is modelled by an
environment function fails : Nat -> Bool.  Wall-clock time is passed in
as an hour and a minute.  Exceptions caught by the code are modelled by
total functions returning the observable outcome.
-/

/-- Model of ConnectionManager.connect: accept the websocket and append
its handle to active_connections (Python list.append). -/
def ConnectionManager.connect (websocket : Nat) (active_connections : List Nat) : List Nat :=
  active_connections ++ [websocket]

/-- Model of ConnectionManager.disconnect: if the handle is in
active_connections, remove its first occurrence (Python list.remove);
otherwise do nothing. -/
def ConnectionManager.disconnect (websocket : Nat) (active_connections : List Nat) : List Nat :=
  if websocket ∈ active_connections then active_connections.erase websocket
  else active_connections

/-- Observable outcome of one ConnectionManager.broadcast call: the
final registry, the send attempts made (target handle paired with the
payload), and the sends that succeeded. -/
structure BroadcastResult where
  registry : List Nat
  attempted : List (Nat × String)
  delivered : List (Nat × String)

/-- The loop body of ConnectionManager.broadcast: iterate over the
snapshot (first argument, Python list(self.active_connections)) while
mutating the live registry (second argument).  A send to connection c
raises iff fails c; the except branch removes the connection from the
live registry if it is still present. -/
def ConnectionManager.broadcastGo (fails : Nat → Bool) (message : String) :
    List Nat → List Nat → BroadcastResult
  | [], s => ⟨s, [], []⟩
  | connection :: rest, s =>
    if fails connection then
      let s1 := if connection ∈ s then s.erase connection else s
      let r := ConnectionManager.broadcastGo fails message rest s1
      ⟨r.registry, (connection, message) :: r.attempted, r.delivered⟩
    else
      let r := ConnectionManager.broadcastGo fails message rest s
      ⟨r.registry, (connection, message) :: r.attempted,
        (connection, message) :: r.delivered⟩

/-- Model of ConnectionManager.broadcast: take a snapshot of
active_connections and run the loop over it. -/
def ConnectionManager.broadcast (fails : Nat → Bool) (message : String)
    (active_connections : List Nat) : BroadcastResult :=
  ConnectionManager.broadcastGo fails message active_connections active_connections

/-- Lowercase hexadecimal digit, as used by Python json \uXXXX escapes. -/
def hexDigit (n : Nat) : Char :=
  if n % 16 < 10 then Char.ofNat (48 + n % 16) else Char.ofNat (87 + n % 16)

/-- A \uXXXX escape for a code unit below 0x10000. -/
def uEscape (n : Nat) : String :=
  "\\u" ++ String.mk [hexDigit (n / 4096), hexDigit (n / 256), hexDigit (n / 16), hexDigit n]

/-- Per-character escaping of Python json.dumps with default
ensure_ascii=True: backslash and quote are escaped, common control
characters use short escapes, every other character outside 0x20..0x7e
becomes \uXXXX (a surrogate pair above 0xffff). -/
def escapeChar (c : Char) : String :=
  if c = '"' then "\\\""
  else if c = '\\' then "\\\\"
  else if c = '\n' then "\\n"
  else if c = '\r' then "\\r"
  else if c = '\t' then "\\t"
  else if c.toNat = 8 then "\\b"
  else if c.toNat = 12 then "\\f"
  else if c.toNat < 32 ∨ c.toNat > 126 then
    if c.toNat < 65536 then uEscape c.toNat
    else
      uEscape (55296 + (c.toNat - 65536) / 1024) ++ uEscape (56320 + (c.toNat - 65536) % 1024)
  else String.singleton c

/-- json.dumps string escaping applied to a whole string. -/
def jsonEscape (s : String) : String :=
  String.join (s.data.map escapeChar)

/-- The dict built in websocket_endpoint before serialization. -/
structure ChatMessage where
  client_id : Nat
  timestamp : String
  message : String

/-- Model of json.dumps on the chat dict, with Python default
separators and key insertion order. -/
def json_dumps (msg : ChatMessage) : String :=
  "\x7b\"client_id\": " ++ toString msg.client_id ++
    ", \"timestamp\": \"" ++ jsonEscape msg.timestamp ++
    "\", \"message\": \"" ++ jsonEscape msg.message ++ "\"\x7d"

/-- Two-digit zero-padded decimal, as produced by strftime %H and %M. -/
def pad2 (n : Nat) : String :=
  if n < 10 then "0" ++ toString n else toString n

/-- Model of time.strftime applied to the %H:%M format. -/
def strftime_HM (hour minute : Nat) : String :=
  pad2 hour ++ ":" ++ pad2 minute

/-- Observable outcome of one iteration of the websocket_endpoint
receive loop on a frame that arrived without error. -/
structure FrameResult where
  registry : List Nat
  payloads : List String
  attempted : List (Nat × String)
  delivered : List (Nat × String)

/-- Model of one iteration of the websocket_endpoint while loop, given
the received frame: a ping is dropped, any other frame is stamped,
serialized and broadcast. -/
def websocket_endpoint_step (fails : Nat → Bool) (client_id hour minute : Nat)
    (data : String) (reg : List Nat) : FrameResult :=
  if data = "__ping__" then ⟨reg, [], [], []⟩
  else
    let payload := json_dumps ⟨client_id, strftime_HM hour minute, data⟩
    let r := ConnectionManager.broadcast fails payload reg
    ⟨r.registry, [payload], r.attempted, r.delivered⟩

/-- The two except branches of websocket_endpoint: WebSocketDisconnect
and every other exception. -/
inductive EndpointErr where
  | wsDisconnect
  | otherExn

/-- Model of the exception handling of websocket_endpoint: either
except branch calls manager.disconnect and broadcasts nothing; the
second component is the list of payloads broadcast during cleanup. -/
def websocket_endpoint_cleanup (e : EndpointErr) (websocket : Nat) (reg : List Nat) :
    List Nat × List String :=
  match e with
  | .wsDisconnect => (ConnectionManager.disconnect websocket reg, [])
  | .otherExn => (ConnectionManager.disconnect websocket reg, [])

/-- One registry operation, for stating the registry invariant over
operation sequences. -/
inductive HubOp where
  | add : Nat → HubOp
  | remove : Nat → HubOp
  | bcast : (Nat → Bool) → String → HubOp

/-- Apply one registry operation to the registry. -/
def applyOp : HubOp → List Nat → List Nat
  | .add w, l => ConnectionManager.connect w l
  | .remove w, l => ConnectionManager.disconnect w l
  | .bcast fails msg, l => (ConnectionManager.broadcast fails msg l).registry

/-- Run a sequence of registry operations. -/
def runOps : List HubOp → List Nat → List Nat
  | [], l => l
  | op :: rest, l => runOps rest (applyOp op l)

/-- Checks that every add in the sequence is applied to a registry not
already holding that handle. -/
def freshAdds : List HubOp → List Nat → Bool
  | [], _ => true
  | .add w :: rest, l => !(decide (w ∈ l)) && freshAdds rest (applyOp (.add w) l)
  | .remove w :: rest, l => freshAdds rest (applyOp (.remove w) l)
  | .bcast fails msg :: rest, l => freshAdds rest (applyOp (.bcast fails msg) l)

-- Helper lemmas about the broadcast loop.

/-- The attempts made by the loop are exactly the snapshot, in order,
each paired with the payload. -/
theorem broadcastGo_attempted (fails : Nat → Bool) (message : String) :
    ∀ (rest s : List Nat),
      (ConnectionManager.broadcastGo fails message rest s).attempted
        = rest.map (fun c => (c, message)) := by
  intro rest
  induction rest with
  | nil => intro s; rfl
  | cons c rest ih =>
    intro s
    by_cases h : fails c
    · simp [ConnectionManager.broadcastGo, h, ih]
    · simp [ConnectionManager.broadcastGo, h, ih]

/-- The successful deliveries of the loop are exactly the non-failing
elements of the snapshot, in order. -/
theorem broadcastGo_delivered (fails : Nat → Bool) (message : String) :
    ∀ (rest s : List Nat),
      (ConnectionManager.broadcastGo fails message rest s).delivered
        = (rest.filter (fun c => !fails c)).map (fun c => (c, message)) := by
  intro rest
  induction rest with
  | nil => intro s; rfl
  | cons c rest ih =>
    intro s
    by_cases h : fails c
    · simp [ConnectionManager.broadcastGo, h, ih]
    · simp [ConnectionManager.broadcastGo, h, ih]

/-- Loop invariant: running the loop over the remaining snapshot when
the live registry is a processed non-failing part followed by the
remaining snapshot filters the failing elements out of the remainder. -/
theorem broadcastGo_registry_inv (fails : Nat → Bool) (message : String) :
    ∀ (rest pre : List Nat), (∀ x ∈ pre, fails x = false) →
      (ConnectionManager.broadcastGo fails message rest (pre ++ rest)).registry
        = pre ++ rest.filter (fun c => !fails c) := by
  intro rest
  induction rest with
  | nil => intro pre _; simp [ConnectionManager.broadcastGo]
  | cons c rest ih =>
    intro pre hpre
    by_cases h : fails c
    · have hcpre : c ∉ pre := fun hc => by simp [hpre c hc] at h
      have hmem : c ∈ pre ++ c :: rest := by simp
      have herase : (pre ++ c :: rest).erase c = pre ++ rest := by
        rw [List.erase_append_right _ hcpre, List.erase_cons_head]
      simp only [ConnectionManager.broadcastGo, h, if_pos hmem, herase, if_true]
      rw [ih pre hpre]
      simp [h]
    · have hstep : pre ++ c :: rest = (pre ++ [c]) ++ rest := by simp
      have hpre2 : ∀ x ∈ pre ++ [c], fails x = false := by
        intro x hx
        rcases List.mem_append.mp hx with hx | hx
        · exact hpre x hx
        · simp at hx
          subst hx
          exact Bool.eq_false_iff.mpr h
      simp only [ConnectionManager.broadcastGo, h, if_false, Bool.false_eq_true]
      rw [hstep, ih (pre ++ [c]) hpre2]
      simp [h]

/-- The final registry of a broadcast is the original registry with
exactly the failing targets removed. -/
theorem broadcast_registry_eq_filter (fails : Nat → Bool) (message : String)
    (l : List Nat) :
    (ConnectionManager.broadcast fails message l).registry
      = l.filter (fun c => !fails c) := by
  have h := broadcastGo_registry_inv fails message l [] (by intro x hx; cases hx)
  simpa [ConnectionManager.broadcast] using h

-- Claim theorems.

/-- C1: broadcast attempts delivery to every currently registered
connection, in registry order; every target whose send fails is absent
from the registry when the call ends; a failure on one target does not
stop the attempts to the others, and broadcast is a total function, so
no error reaches its caller. -/
theorem C1_broadcast_attempts_all_removes_failing
    (fails : Nat → Bool) (message : String) (l : List Nat) :
    (ConnectionManager.broadcast fails message l).attempted
        = l.map (fun c => (c, message)) ∧
    (∀ c, c ∈ l → fails c = true →
        c ∉ (ConnectionManager.broadcast fails message l).registry) := by
  constructor
  · simpa [ConnectionManager.broadcast] using broadcastGo_attempted fails message l l
  · intro c _ hf
    rw [broadcast_registry_eq_filter]
    simp [List.mem_filter, hf]

/-- Witness for C1 at a concrete registry where the send to handle 1
fails. -/
theorem C1_witness :
    (1 : Nat) ∈ ([0, 1, 2] : List Nat) ∧ (fun c => c == 1) 1 = true ∧
      1 ∉ (ConnectionManager.broadcast (fun c => c == 1) "x" [0, 1, 2]).registry :=
  ⟨by decide, by decide,
    (C1_broadcast_attempts_all_removes_failing (fun c => c == 1) "x" [0, 1, 2]).2 1
      (by decide) (by decide)⟩

/-- C2: broadcast iterates over the snapshot taken when the call
begins: on a duplicate-free registry the attempted targets are exactly
the initial membership, so every member gets exactly one delivery
attempt, unaffected by the removals performed from within the call. -/
theorem C2_snapshot_one_attempt_each
    (fails : Nat → Bool) (message : String) (l : List Nat) (h : l.Nodup) :
    ((ConnectionManager.broadcast fails message l).attempted).map Prod.fst = l ∧
    ∀ c ∈ l,
      (((ConnectionManager.broadcast fails message l).attempted).map Prod.fst).count c
        = 1 := by
  have ha : (ConnectionManager.broadcast fails message l).attempted
      = l.map (fun c => (c, message)) := by
    simpa [ConnectionManager.broadcast] using broadcastGo_attempted fails message l l
  have hfst : ((ConnectionManager.broadcast fails message l).attempted).map Prod.fst = l := by
    have hcomp : (Prod.fst ∘ fun c : Nat => (c, message)) = id := rfl
    rw [ha, List.map_map, hcomp, List.map_id]
  refine ⟨hfst, ?_⟩
  intro c hc
  rw [hfst]
  exact List.count_eq_one_of_mem h hc

/-- Witness for C2 at a concrete duplicate-free registry. -/
theorem C2_witness :
    ([0, 1, 2] : List Nat).Nodup ∧ (0 : Nat) ∈ ([0, 1, 2] : List Nat) ∧
    (((ConnectionManager.broadcast (fun c => c == 1) "x" [0, 1, 2]).attempted).map
        Prod.fst).count 0 = 1 :=
  ⟨by decide, by decide,
    (C2_snapshot_one_attempt_each (fun c => c == 1) "x" [0, 1, 2] (by decide)).2 0
      (by decide)⟩

/-- C3 as stated is false on the code: connect appends unconditionally,
so Add called twice with the same handle leaves two occurrences of it
in the registry. -/
theorem C3_counterexample :
    ¬ (ConnectionManager.connect 7 (ConnectionManager.connect 7 [])).Nodup := by
  decide

/-- C3 amended: for every sequence of Add, Remove and Broadcast in
which each Add is applied while its handle is absent, the registry
never contains a duplicate handle. -/
theorem C3_amended_nodup_preserved :
    ∀ (ops : List HubOp) (l : List Nat), l.Nodup → freshAdds ops l = true →
      (runOps ops l).Nodup := by
  intro ops
  induction ops with
  | nil => intro l h _; exact h
  | cons op rest ih =>
    intro l h hf
    cases op with
    | add w =>
      have hsplit : (!(decide (w ∈ l))) = true ∧ freshAdds rest (applyOp (.add w) l) = true := by
        simpa [freshAdds, Bool.and_eq_true] using hf
      have hw : w ∉ l := by
        have := hsplit.1
        simpa using this
      have hnd : (applyOp (.add w) l).Nodup := by
        simp only [applyOp, ConnectionManager.connect]
        rw [List.nodup_append]
        refine ⟨h, List.nodup_singleton w, ?_⟩
        intro a ha hb
        simp only [List.mem_singleton] at hb
        subst hb
        exact hw ha
      exact ih _ hnd hsplit.2
    | remove w =>
      have hnd : (applyOp (.remove w) l).Nodup := by
        simp only [applyOp, ConnectionManager.disconnect]
        split
        · exact (List.erase_sublist w l).nodup h
        · exact h
      exact ih _ hnd (by simpa [freshAdds] using hf)
    | bcast fails msg =>
      have hnd : (applyOp (.bcast fails msg) l).Nodup := by
        simp only [applyOp]
        rw [broadcast_registry_eq_filter]
        exact h.filter _
      exact ih _ hnd (by simpa [freshAdds] using hf)

/-- Witness for the amended C3 on a concrete operation sequence with a
fresh re-add after a broadcast-induced removal. -/
theorem C3_amended_witness :
    ([] : List Nat).Nodup ∧
    freshAdds [HubOp.add 0, HubOp.add 1, HubOp.bcast (fun c => c == 0) "m", HubOp.add 0]
        [] = true ∧
    (runOps [HubOp.add 0, HubOp.add 1, HubOp.bcast (fun c => c == 0) "m", HubOp.add 0]
        []).Nodup :=
  ⟨List.nodup_nil, by decide,
    C3_amended_nodup_preserved _ [] List.nodup_nil (by decide)⟩

/-- C4: disconnect of an absent handle is a no-op, and on a
duplicate-free registry disconnect removes the handle entirely so a
second disconnect of the same handle changes nothing; disconnect is a
total function, so it never raises. -/
theorem C4_disconnect_idempotent (w : Nat) (l : List Nat) :
    (w ∉ l → ConnectionManager.disconnect w l = l) ∧
    (l.Nodup → w ∉ ConnectionManager.disconnect w l) ∧
    (l.Nodup → ConnectionManager.disconnect w (ConnectionManager.disconnect w l)
        = ConnectionManager.disconnect w l) := by
  have habs : ∀ (m : List Nat), w ∉ m → ConnectionManager.disconnect w m = m := by
    intro m hm
    simp [ConnectionManager.disconnect, hm]
  have hgone : l.Nodup → w ∉ ConnectionManager.disconnect w l := by
    intro h
    by_cases hmem : w ∈ l
    · rw [ConnectionManager.disconnect, if_pos hmem]
      intro hc
      exact ((List.Nodup.mem_erase_iff h).mp hc).1 rfl
    · rw [habs l hmem]
      exact hmem
  exact ⟨habs l, hgone, fun h => habs _ (hgone h)⟩

/-- Witness for C4: an absent handle is a no-op, a present handle is
gone after one disconnect and a second disconnect changes nothing. -/
theorem C4_witness :
    ConnectionManager.disconnect 3 [1, 2] = [1, 2] ∧
    (1 : Nat) ∉ ConnectionManager.disconnect 1 [1, 2] ∧
    ConnectionManager.disconnect 1 (ConnectionManager.disconnect 1 [1, 2])
      = ConnectionManager.disconnect 1 [1, 2] :=
  ⟨(C4_disconnect_idempotent 3 [1, 2]).1 (by decide),
    (C4_disconnect_idempotent 1 [1, 2]).2.1 (by decide),
    (C4_disconnect_idempotent 1 [1, 2]).2.2 (by decide)⟩

/-- C5: a keepalive frame produces no payload, no send attempt, no
delivery, and leaves the registry unchanged. -/
theorem C5_ping_no_effect (fails : Nat → Bool) (client_id hour minute : Nat)
    (reg : List Nat) :
    (websocket_endpoint_step fails client_id hour minute "__ping__" reg).registry = reg ∧
    (websocket_endpoint_step fails client_id hour minute "__ping__" reg).payloads = [] ∧
    (websocket_endpoint_step fails client_id hour minute "__ping__" reg).attempted = [] ∧
    (websocket_endpoint_step fails client_id hour minute "__ping__" reg).delivered = [] := by
  refine ⟨?_, ?_, ?_, ?_⟩ <;> simp [websocket_endpoint_step]

/-- C6: any non-ping frame, the empty string included, yields exactly
one broadcast payload: the JSON object whose client_id is the
connection identifier, whose timestamp is the wall-clock time at minute
precision, and whose message is the frame content verbatim; that
payload is what every registered connection is sent. -/
theorem C6_chat_payload (fails : Nat → Bool) (client_id hour minute : Nat)
    (data : String) (reg : List Nat) (h : data ≠ "__ping__") :
    (websocket_endpoint_step fails client_id hour minute data reg).payloads
      = [json_dumps ⟨client_id, strftime_HM hour minute, data⟩] ∧
    (websocket_endpoint_step fails client_id hour minute data reg).attempted
      = reg.map (fun c => (c, json_dumps ⟨client_id, strftime_HM hour minute, data⟩)) := by
  constructor
  · simp [websocket_endpoint_step, h]
  · simp only [websocket_endpoint_step, h, if_neg, ite_false]
    simpa [ConnectionManager.broadcast] using
      broadcastGo_attempted fails (json_dumps ⟨client_id, strftime_HM hour minute, data⟩)
        reg reg

/-- Witness for C6 on the empty-string frame. -/
theorem C6_witness :
    ("" : String) ≠ "__ping__" ∧
    (websocket_endpoint_step (fun _ => false) 5 9 7 "" [0]).payloads
      = [json_dumps ⟨5, strftime_HM 9 7, ""⟩] :=
  ⟨by decide, (C6_chat_payload (fun _ => false) 5 9 7 "" [0] (by decide)).1⟩

/-- C7: no server-side suppression of self-delivery: every registry
member, the sender included whenever it is a member, gets a send
attempt carrying the serialized message, and receives it whenever its
transport does not fail. -/
theorem C7_no_self_suppression (fails : Nat → Bool) (client_id hour minute : Nat)
    (data : String) (reg : List Nat) (ws : Nat)
    (hping : data ≠ "__ping__") (hmem : ws ∈ reg) :
    (ws, json_dumps ⟨client_id, strftime_HM hour minute, data⟩)
        ∈ (websocket_endpoint_step fails client_id hour minute data reg).attempted ∧
    (fails ws = false →
      (ws, json_dumps ⟨client_id, strftime_HM hour minute, data⟩)
        ∈ (websocket_endpoint_step fails client_id hour minute data reg).delivered) := by
  have hatt : (websocket_endpoint_step fails client_id hour minute data reg).attempted
      = reg.map (fun c => (c, json_dumps ⟨client_id, strftime_HM hour minute, data⟩)) := by
    simp only [websocket_endpoint_step, hping, ite_false]
    simpa [ConnectionManager.broadcast] using
      broadcastGo_attempted fails (json_dumps ⟨client_id, strftime_HM hour minute, data⟩)
        reg reg
  have hdel : (websocket_endpoint_step fails client_id hour minute data reg).delivered
      = (reg.filter (fun c => !fails c)).map
          (fun c => (c, json_dumps ⟨client_id, strftime_HM hour minute, data⟩)) := by
    simp only [websocket_endpoint_step, hping, ite_false]
    simpa [ConnectionManager.broadcast] using
      broadcastGo_delivered fails (json_dumps ⟨client_id, strftime_HM hour minute, data⟩)
        reg reg
  constructor
  · rw [hatt]
    exact List.mem_map_of_mem _ hmem
  · intro hok
    rw [hdel]
    refine List.mem_map_of_mem _ ?_
    exact List.mem_filter.mpr ⟨hmem, by simp [hok]⟩

/-- Witness for C7: the sender connection 3 is a registry member and
receives its own message. -/
theorem C7_witness :
    ("hello" : String) ≠ "__ping__" ∧ (3 : Nat) ∈ ([3] : List Nat) ∧
    (3, json_dumps ⟨3, strftime_HM 12 30, "hello"⟩)
      ∈ (websocket_endpoint_step (fun _ => false) 3 12 30 "hello" [3]).delivered :=
  ⟨by decide, by decide,
    (C7_no_self_suppression (fun _ => false) 3 12 30 "hello" [3] 3
      (by decide) (by decide)).2 rfl⟩

/-- C8: both exception branches of the receive loop funnel into the
same cleanup: the connection is removed with disconnect, nothing is
broadcast, and for a registered connection the registry shrinks by
exactly one. -/
theorem C8_cleanup_same_path (e1 e2 : EndpointErr) (ws : Nat) (reg : List Nat) :
    websocket_endpoint_cleanup e1 ws reg = websocket_endpoint_cleanup e2 ws reg ∧
    (websocket_endpoint_cleanup e1 ws reg).1 = ConnectionManager.disconnect ws reg ∧
    (websocket_endpoint_cleanup e1 ws reg).2 = [] ∧
    (ws ∈ reg → (websocket_endpoint_cleanup e1 ws reg).1.length + 1 = reg.length) := by
  refine ⟨?_, ?_, ?_, ?_⟩
  · cases e1 <;> cases e2 <;> rfl
  · cases e1 <;> rfl
  · cases e1 <;> rfl
  · intro hmem
    have hlen : (reg.erase ws).length + 1 = reg.length := List.length_erase_add_one hmem
    cases e1 <;>
      simpa [websocket_endpoint_cleanup, ConnectionManager.disconnect, hmem] using hlen

/-- Witness for C8 with a registered connection. -/
theorem C8_witness :
    (0 : Nat) ∈ ([0, 1] : List Nat) ∧
    (websocket_endpoint_cleanup EndpointErr.wsDisconnect 0 [0, 1]).1.length + 1
      = ([0, 1] : List Nat).length :=
  ⟨by decide,
    (C8_cleanup_same_path EndpointErr.wsDisconnect EndpointErr.otherExn 0 [0, 1]).2.2.2
      (by decide)⟩

/-- C9: the registry after a broadcast is the old registry with exactly
the failing targets filtered out; in particular a broadcast in which
every send succeeds leaves the membership unchanged. -/
theorem C9_broadcast_removes_only_failures (fails : Nat → Bool) (message : String)
    (reg : List Nat) :
    (ConnectionManager.broadcast fails message reg).registry
        = reg.filter (fun c => !fails c) ∧
    ((∀ c ∈ reg, fails c = false) →
        (ConnectionManager.broadcast fails message reg).registry = reg) := by
  refine ⟨broadcast_registry_eq_filter fails message reg, ?_⟩
  intro h
  rw [broadcast_registry_eq_filter]
  apply List.filter_eq_self.mpr
  intro a ha
  simp [h a ha]

/-- Witness for C9 with an all-success broadcast. -/
theorem C9_witness :
    (∀ c ∈ ([1, 2] : List Nat), (fun _ : Nat => false) c = false) ∧
    (ConnectionManager.broadcast (fun _ => false) "x" [1, 2]).registry = [1, 2] :=
  ⟨by decide,
    (C9_broadcast_removes_only_failures (fun _ => false) "x" [1, 2]).2 (by decide)⟩

/-- C10: when a handle occurs more than once, one disconnect removes
exactly one occurrence of that handle, keeps the rest, and does not
change the count of any other handle. -/
theorem C10_remove_single_occurrence (w : Nat) (reg : List Nat)
    (h : 2 ≤ reg.count w) :
    (ConnectionManager.disconnect w reg).count w = reg.count w - 1 ∧
    w ∈ ConnectionManager.disconnect w reg ∧
    (∀ v, v ≠ w → (ConnectionManager.disconnect w reg).count v = reg.count v) := by
  have hmem : w ∈ reg := by
    by_contra hw
    have h0 : reg.count w = 0 := List.count_eq_zero.mpr hw
    omega
  have hdef : ConnectionManager.disconnect w reg = reg.erase w := by
    simp [ConnectionManager.disconnect, hmem]
  have hcount : (reg.erase w).count w = reg.count w - 1 := List.count_erase_self w reg
  refine ⟨by rw [hdef]; exact hcount, ?_, ?_⟩
  · by_contra habs
    rw [hdef] at habs
    have h0 : (reg.erase w).count w = 0 := List.count_eq_zero.mpr habs
    omega
  · intro v hv
    rw [hdef]
    exact List.count_erase_of_ne hv reg

/-- Witness for C10 on a registry holding handle 1 twice. -/
theorem C10_witness :
    2 ≤ ([1, 1, 2] : List Nat).count 1 ∧
    (1 : Nat) ∈ ConnectionManager.disconnect 1 [1, 1, 2] :=
  ⟨by decide, (C10_remove_single_occurrence 1 [1, 1, 2] (by decide)).2.1⟩
